import Mathlib

/-!
Verification of the kuimaze2 grid-world RL library and its Q-learning agent.

The definitions below are a shallow embedding of the Python sources:
  kuimaze2/map.py  (State, Action, Role, Border, Cell, Map),
  kuimaze2/mdp.py  (Rewards, Confusion, action models, MDP),
  kuimaze2/rl.py   (RLProblem: reset and step),
  rl_agent.py      (Q-table initialization and the TD(0) update).

Modelling conventions:
  - Python floats are embedded as rationals (Rat); all arithmetic in the
    verified code paths consists of field operations that are exact.
  - Python dicts are embedded as association lists; assignment replaces the
    binding of an existing key in place and appends a missing key at the end,
    matching dict insertion-order semantics.
  - Randomness (random.choice, confusion sampling) is embedded by passing the
    drawn index or the drawn confusion as an explicit oracle argument.
  - Exceptions are embedded as an error enumeration returned through Except.
    The module kuimaze2/exceptions.py is not part of the sources; the error
    kinds NeedsResetError, ResetImpossibleError and ValidationError are
    modelled from the spec, which assigns ValidationError to malformed
    confusion weights at construction.
-/

namespace Kuimaze

/-- Embedding of the error kinds surfaced by the library.  The first three are
the spec's named errors; the remaining ones stand for the Python built-in
exceptions raised on the corresponding code paths. -/
inductive RLError where
  | needsReset
  | resetImpossible
  | validationError
  | stopIteration
  | valueError
  | indexError
  | typeError
deriving DecidableEq, Repr

/-- Embedding of map.State (a frozen 2D integer coordinate, row and column). -/
structure State where
  r : Int
  c : Int
deriving DecidableEq, Repr

/-- Embedding of MazeVec addition, as used by State + Action.to_vec(). -/
def State.add (s : State) (d : State) : State :=
  { r := s.r + d.r, c := s.c + d.c }

/-- Embedding of map.Action (IntEnum with values UP=0, RIGHT=1, DOWN=2, LEFT=3). -/
inductive Action where
  | UP
  | RIGHT
  | DOWN
  | LEFT
deriving DecidableEq, Repr

/-- Integer value of an Action, as in the Python IntEnum. -/
def Action.toNat : Action → Nat
  | .UP => 0
  | .RIGHT => 1
  | .DOWN => 2
  | .LEFT => 3

/-- Action built from an integer value modulo 4, as in Action((...) % 4).
Named ofVal because Lean reserves Action.ofNat for the derived enum helper. -/
def Action.ofVal (n : Nat) : Action :=
  match n % 4 with
  | 0 => .UP
  | 1 => .RIGHT
  | 2 => .DOWN
  | _ => .LEFT

/-- Embedding of Action.to_vec: the coordinate delta of each direction. -/
def Action.to_vec : Action → State
  | .UP => { r := -1, c := 0 }
  | .RIGHT => { r := 0, c := 1 }
  | .DOWN => { r := 1, c := 0 }
  | .LEFT => { r := 0, c := -1 }

/-- The Python iteration order over Action (list(Action)). -/
def actionList : List Action := [Action.UP, Action.RIGHT, Action.DOWN, Action.LEFT]

/-- Embedding of mdp.Confusion (relative rotations NONE=0, RIGHT=1, BACKWARD=2, LEFT=3). -/
inductive Confusion where
  | NONE
  | RIGHT
  | BACKWARD
  | LEFT
deriving DecidableEq, Repr

/-- Integer value of a Confusion, as in the Python IntEnum. -/
def Confusion.toNat : Confusion → Nat
  | .NONE => 0
  | .RIGHT => 1
  | .BACKWARD => 2
  | .LEFT => 3

/-- Embedding of Confusion.apply_to: Action((action + self) % 4). -/
def Confusion.apply_to (c : Confusion) (a : Action) : Action :=
  Action.ofVal ((a.toNat + c.toNat) % 4)

/-- The Python iteration order over Confusion, as in StochasticActions.__init__
where the dict is keyed NONE, RIGHT, BACKWARD, LEFT. -/
def confusionList : List Confusion :=
  [Confusion.NONE, Confusion.RIGHT, Confusion.BACKWARD, Confusion.LEFT]

/-- Embedding of map.Role (role of a cell in a map). -/
inductive Role where
  | EMPTY
  | WALL
  | START
  | GOAL
  | DANGER
deriving DecidableEq, Repr

/-- Embedding of the Role(char) enum constructor; returns none where Python
raises ValueError on an unknown character. -/
def Role.ofChar (ch : Char) : Option Role :=
  if ch = '.' then some Role.EMPTY
  else if ch = '#' then some Role.WALL
  else if ch = 'S' then some Role.START
  else if ch = 'G' then some Role.GOAL
  else if ch = 'D' then some Role.DANGER
  else none

/-- Border flags are embedded as a natural-number bitmask, exactly the IntFlag
values TOP=1, RIGHT=2, BOTTOM=4, LEFT=8. -/
def Border.correspondingTo (a : Action) : Nat := 2 ^ a.toNat

/-- Embedding of Border.prevents_action: containment of the single-bit flag. -/
def borderPrevents (border : Nat) (a : Action) : Bool :=
  Nat.testBit border a.toNat

/-- Embedding of map.Cell. -/
structure Cell where
  position : State
  role : Role
  border : Nat
deriving DecidableEq, Repr

/-- Embedding of Cell.is_free. -/
def Cell.is_free (cl : Cell) : Bool := decide (cl.role ≠ Role.WALL)

/-- Embedding of map.Map: the cells in dict insertion order, keyed by their
position (positions are unique for maps produced by from_string). -/
structure Map where
  cells : List Cell
deriving DecidableEq, Repr

/-- First cell stored at a given position, mirroring dict lookup. -/
def findCell (s : State) : List Cell → Option Cell
  | [] => none
  | cl :: rest => if cl.position = s then some cl else findCell s rest

/-- Embedding of Map.__getitem__: a missing cell reads as a border-free wall. -/
def Map.getCell (m : Map) (s : State) : Cell :=
  match findCell s m.cells with
  | some cl => cl
  | none => { position := s, role := Role.WALL, border := 0 }

/-- Embedding of Map.width (maximal column plus one). -/
def Map.width (m : Map) : Nat :=
  (m.cells.foldl (fun acc (cl : Cell) => max acc (cl.position.c + 1)) 0).toNat

/-- Embedding of Map.height (maximal row plus one). -/
def Map.height (m : Map) : Nat :=
  (m.cells.foldl (fun acc (cl : Cell) => max acc (cl.position.r + 1)) 0).toNat

/-- Embedding of Map.all_states: all rectangle positions in row-major order. -/
def Map.allStates (m : Map) : List State :=
  (List.range m.height).flatMap
    (fun r => (List.range m.width).map (fun c => { r := (r : Int), c := (c : Int) }))

/-- Embedding of Map._shall_have_border for one square and direction. -/
def Map.shallHaveBorder (m : Map) (sq : Cell) (a : Action) : Bool :=
  if sq.role = Role.WALL then true
  else if borderPrevents sq.border a then true
  else sq.is_free != (m.getCell (State.add sq.position a.to_vec)).is_free

/-- The border bitmask accumulated by Map._complete for one square. -/
def Map.borderOf (m : Map) (sq : Cell) : Nat :=
  actionList.foldl
    (fun b a => if m.shallHaveBorder sq a then b ||| Border.correspondingTo a else b) 0

/-- Embedding of Map._complete.  The imperative loop only reads the roles of
neighbouring cells and the original border of the square being processed, so
the in-place mutation is equivalent to this functional rebuild that reads
everything from the original map. -/
def Map.complete (m : Map) : Map :=
  { cells := m.allStates.map (fun s =>
      let sq := m.getCell s
      { position := s, role := sq.role, border := m.borderOf sq }) }

/-- Newline splitting over the character list, the behaviour of Python
splitlines on inputs whose only line breaks are newline characters. -/
def splitLinesAux (cur : List Char) : List Char → List (List Char)
  | [] => [cur.reverse]
  | ch :: rest =>
      if ch = '\n' then cur.reverse :: splitLinesAux [] rest
      else splitLinesAux (ch :: cur) rest

/-- Lines of a character sequence (see splitLinesAux). -/
def splitLines (cs : List Char) : List (List Char) := splitLinesAux [] cs

/-- Embedding of str.strip: drop whitespace from both ends. -/
def trimChars (cs : List Char) : List Char :=
  ((cs.dropWhile Char.isWhitespace).reverse.dropWhile Char.isWhitespace).reverse

/-- Cells of one input row of Map.from_string; an unknown character is the
Role(char) ValueError. -/
def rowCells (r : Nat) (row : List Char) : Except RLError (List Cell) :=
  row.enum.mapM (fun pr =>
    match Role.ofChar pr.2 with
    | some role =>
        Except.ok { position := { r := (r : Int), c := (pr.1 : Int) }, role := role, border := 0 }
    | none => Except.error RLError.valueError)

/-- Embedding of Map.from_string followed by Map.__init__ (which substitutes a
single default cell for an empty cell list and then runs _complete).  The
input is split into stripped non-empty rows exactly as in the Python list
comprehension. -/
def Map.from_string (s : String) : Except RLError Map := do
  let rows := ((splitLines s.data).map trimChars).filter (fun row => row ≠ [])
  let cellLists ← rows.enum.mapM (fun pr => rowCells pr.1 pr.2)
  let cells := cellLists.flatten
  let cells := if cells = [] then [{ position := { r := 0, c := 0 }, role := Role.EMPTY, border := 0 }] else cells
  Except.ok (Map.complete { cells := cells })

/-- Embedding of Map.transition_possible. -/
def Map.transition_possible (m : Map) (s : State) (a : Action) : Bool :=
  !(borderPrevents (m.getCell s).border a)

/-- Embedding of Map.get_transition_result: blocked actions keep the state. -/
def Map.get_transition_result (m : Map) (s : State) (a : Action) : State :=
  if m.transition_possible s a then State.add s a.to_vec else s

/-- Positions of cells with the START role, in map order. -/
def Map.startList (m : Map) : List State :=
  (m.cells.filter (fun cl => decide (cl.role = Role.START))).map (fun cl => cl.position)

/-- Embedding of Map.start: none when no start cell exists, the single start
cell otherwise, and the ValueError raised on multiple start squares. -/
def Map.startEx (m : Map) : Except RLError (Option State) :=
  match m.startList with
  | [] => Except.ok none
  | [s] => Except.ok (some s)
  | _ => Except.error RLError.valueError

/-- Embedding of Map.goals (set of positions of GOAL cells; positions are
unique in completed maps, so a list in map order is a faithful model). -/
def Map.goalsList (m : Map) : List State :=
  (m.cells.filter (fun cl => decide (cl.role = Role.GOAL))).map (fun cl => cl.position)

/-- Embedding of Map.dangers. -/
def Map.dangersList (m : Map) : List State :=
  (m.cells.filter (fun cl => decide (cl.role = Role.DANGER))).map (fun cl => cl.position)

/-- Embedding of mdp.Rewards (rewards for leaving states of each role). -/
structure Rewards where
  goal : Rat
  danger : Rat
  normal : Rat
deriving DecidableEq, Repr

/-- The Python default Rewards(goal=1.0, danger=-1.0, normal=-0.04). -/
def defaultRewards : Rewards := { goal := 1, danger := -1, normal := -1/25 }

/-- Embedding of the two ActionsModel variants.  A stochastic model carries its
confusion_probs dict as a function on Confusion. -/
inductive ActionsModel where
  | deterministic
  | stochastic (confusion_probs : Confusion → Rat)

/-- Embedding of StochasticActions.__init__.  The assert on the weight sum is
the construction-time validation; its failure is the spec's ValidationError
(the exceptions module is not among the sources, so the exception class is
modelled from the spec).  On success the weights are renormalized and the
forward weight is recomputed as the remainder. -/
def StochasticActions.init (forward left right backward : Rat) :
    Except RLError (Confusion → Rat) :=
  let total := forward + left + right + backward
  if |1 - total| < 1 / 1000000 then
    let l := left / total
    let r := right / total
    let b := backward / total
    let f := 1 - l - r - b
    Except.ok (fun c =>
      match c with
      | Confusion.NONE => f
      | Confusion.RIGHT => r
      | Confusion.BACKWARD => b
      | Confusion.LEFT => l)
  else Except.error RLError.validationError

/-- Embedding of get_actions_probs for both model variants.  The stochastic
dict comprehension is modelled as the list of its four entries in insertion
order; the keys are pairwise distinct, so no merging occurs. -/
def ActionsModel.get_actions_probs : ActionsModel → Action → List (Action × Rat)
  | .deterministic, a => [(a, 1)]
  | .stochastic p, a => confusionList.map (fun c => (c.apply_to a, p c))

/-- Embedding of sample_action; the drawn confusion is the oracle argument. -/
def ActionsModel.sample_action (am : ActionsModel) (oracle : Confusion) (a : Action) : Action :=
  match am with
  | .deterministic => a
  | .stochastic _ => oracle.apply_to a

/-- Embedding of mdp.MDP: the map, the action model and the rewards. -/
structure MDP where
  map : Map
  actions_model : ActionsModel
  rewards : Rewards

/-- Embedding of MDP.__init__: deterministic actions when no action_probs are
given, otherwise a validated StochasticActions model, built eagerly. -/
def MDP.init (mp : Map) (action_probs : Option (Rat × Rat × Rat × Rat))
    (rewards : Option Rewards) : Except RLError MDP :=
  match action_probs with
  | none =>
      Except.ok { map := mp, actions_model := ActionsModel.deterministic,
                  rewards := rewards.getD defaultRewards }
  | some (f, l, r, b) =>
      (StochasticActions.init f l r b).map (fun p =>
        { map := mp, actions_model := ActionsModel.stochastic p,
          rewards := rewards.getD defaultRewards })

/-- Embedding of the MDP goal set cached from the map at construction. -/
def MDP.goals (m : MDP) : List State := m.map.goalsList

/-- Embedding of the MDP danger set cached from the map at construction. -/
def MDP.dangers (m : MDP) : List State := m.map.dangersList

/-- Embedding of MDP._is_goal. -/
def MDP.is_goal (m : MDP) (s : State) : Bool := decide (s ∈ m.goals)

/-- Embedding of MDP._is_danger. -/
def MDP.is_danger (m : MDP) (s : State) : Bool := decide (s ∈ m.dangers)

/-- Embedding of MDP.is_terminal. -/
def MDP.is_terminal (m : MDP) (s : State) : Bool := m.is_goal s || m.is_danger s

/-- Embedding of MDP.get_reward (reward for leaving a state). -/
def MDP.get_reward (m : MDP) (s : State) : Rat :=
  if m.is_goal s then m.rewards.goal
  else if m.is_danger s then m.rewards.danger
  else m.rewards.normal

/-- Embedding of MDP.get_states (positions of all free cells). -/
def MDP.get_states (m : MDP) : List State :=
  (m.map.cells.filter (fun cl => cl.is_free)).map (fun cl => cl.position)

/-- Embedding of MDP._get_transition_result: terminal states transition to the
sentinel none; otherwise the map applies the deterministic action. -/
def MDP.transitionResult (m : MDP) (s : State) (a : Action) : Option State :=
  if m.is_terminal s then none else some (m.map.get_transition_result s a)

/-- Embedding of MDP.get_next_states_and_probs. -/
def MDP.get_next_states_and_probs (m : MDP) (s : State) (a : Action) :
    List (Option State × Rat) :=
  (m.actions_model.get_actions_probs a).map (fun pr => (m.transitionResult s pr.1, pr.2))

/-- Embedding of rl.RLProblem: the wrapped MDP and the mutable episode cursor
(current state, which becomes the sentinel none after leaving a terminal, and
the finished flag). -/
structure RLProblem where
  mdp : MDP
  current_state : Option State
  episode_finished : Bool

/-- Embedding of RLProblem.__init__: builds the MDP, then takes the first
element of the goal set as the initial cursor (next(iter(...)) raises
StopIteration on an empty set) and marks the episode finished. -/
def RLProblem.init (mp : Map) (action_probs : Option (Rat × Rat × Rat × Rat))
    (rewards : Option Rewards) : Except RLError RLProblem :=
  match MDP.init mp action_probs rewards with
  | Except.error e => Except.error e
  | Except.ok mdp =>
      match mdp.goals.head? with
      | none => Except.error RLError.stopIteration
      | some g =>
          Except.ok { mdp := mdp, current_state := some g, episode_finished := true }

/-- Embedding of RLProblem.reset.  The pick argument is the oracle for the
uniform random.choice over get_states when random_start is set.  The returned
pair is the Python return value (or the raised error) together with the
environment after the call; the finished flag is cleared, and the current
state mutated, exactly as far as the Python code ran before returning or
raising.  A State argument is always truthy in Python (its len is 2), so the
explicit-state branch never falls through. -/
def RLProblem.reset (env : RLProblem) (pick : Nat) (state : Option State)
    (random_start : Bool) : Except RLError State × RLProblem :=
  let env1 := { env with episode_finished := false }
  match state with
  | some s => (Except.ok s, { env1 with current_state := some s })
  | none =>
    match random_start with
    | true =>
      match env.mdp.get_states with
      | [] => (Except.error RLError.indexError, env1)
      | st :: rest =>
          let chosen := (st :: rest).getD (pick % (st :: rest).length) st
          (Except.ok chosen, { env1 with current_state := some chosen })
    | false =>
      match env.mdp.map.startEx with
      | Except.error e => (Except.error e, env1)
      | Except.ok none =>
          (Except.error RLError.resetImpossible, { env1 with current_state := none })
      | Except.ok (some st) =>
          (Except.ok st, { env1 with current_state := some st })

/-- Embedding of RLProblem.step.  The oracle is the confusion drawn by
sample_action.  When the current state is the sentinel none (possible only
after a failed reset), the membership tests are vacuously false and the
transition raises a TypeError at None + vec, with the environment unchanged.
On success the returned environment carries the advanced cursor, and the
result triple is the Python return value (next state or sentinel, reward for
the state being left, finished flag). -/
def RLProblem.step (env : RLProblem) (oracle : Confusion) (action : Action) :
    Except RLError (RLProblem × Option State × Rat × Bool) :=
  if env.episode_finished then Except.error RLError.needsReset
  else
    match env.current_state with
    | none => Except.error RLError.typeError
    | some s =>
        let finished := env.mdp.is_terminal s
        let reward := env.mdp.get_reward s
        let actual := env.mdp.actions_model.sample_action oracle action
        let next := env.mdp.transitionResult s actual
        Except.ok ({ env with current_state := next, episode_finished := finished },
                   next, reward, finished)

/-- Embedding of RLProblem.get_action_space: all four actions in enum order. -/
def get_action_space : List Action := actionList

/-- Association-list lookup with the semantics of a Python dict read
(first binding of the key). -/
def alookup {α β : Type} [DecidableEq α] (k : α) : List (α × β) → Option β
  | [] => none
  | (k2, v) :: rest => if k2 = k then some v else alookup k rest

/-- Association-list assignment with the semantics of a Python dict write:
replace the binding of an existing key in place, append a missing key. -/
def aset {α β : Type} [DecidableEq α] (k : α) (v : β) : List (α × β) → List (α × β)
  | [] => [(k, v)]
  | (k2, v2) :: rest => if k2 = k then (k, v) :: rest else (k2, v2) :: aset k v rest

/-- Embedding of Python max over a collection of numbers; none on an empty
collection, where Python raises ValueError. -/
def listMax : List Rat → Option Rat
  | [] => none
  | x :: xs => some (xs.foldl max x)

/-- One row of the Q-table: the inner dict from Action to value. -/
abbrev QRow := List (Action × Rat)

/-- The Q-table: the outer dict from State to its row. -/
abbrev QTable := List (State × QRow)

/-- Embedding of RLAgent.init_q_table: a zero row over the whole action space
for every state of the environment. -/
def init_q_table (env : RLProblem) : QTable :=
  env.mdp.get_states.map (fun st => (st, get_action_space.map (fun a => (a, (0 : Rat)))))

/-- Embedding of RLAgent.update_q_value.  The dict reads are modelled by
alookup (none is the Python KeyError), the empty-row max by listMax, and the
final dict write by aset on the row of the state and on the table. -/
def update_q_value (alpha gamma : Rat) (q : QTable) (state : State) (action : Action)
    (reward : Rat) (next_state : Option State) : Option QTable :=
  match alookup state q with
  | none => none
  | some row =>
    match alookup action row with
    | none => none
    | some current_q =>
      let next_max? : Option Rat :=
        match next_state with
        | none => some 0
        | some t =>
          match alookup t q with
          | none => none
          | some row2 => listMax (row2.map (fun pr => pr.2))
      match next_max? with
      | none => none
      | some next_max_q =>
        let td_target := reward + gamma * next_max_q
        let td_error := td_target - current_q
        some (aset state (aset action (current_q + alpha * td_error) row) q)

/-- Read of one Q-table entry: the composition of the two dict lookups. -/
def qget (q : QTable) (s : State) (a : Action) : Option Rat :=
  (alookup s q).bind (fun row => alookup a row)

end Kuimaze

namespace Kuimaze

/-! Association-list lemmas about the dict embedding. -/

theorem alookup_aset_self {α β : Type} [DecidableEq α] (k : α) (v : β) (d : List (α × β)) :
    alookup k (aset k v d) = some v := by
  induction d with
  | nil => simp [aset, alookup]
  | cons hd tl ih =>
      obtain ⟨k2, v2⟩ := hd
      by_cases h : k2 = k
      · simp [aset, h, alookup]
      · simp [aset, h, alookup, ih]

theorem alookup_aset_ne {α β : Type} [DecidableEq α] {k k2 : α} (v : β) (d : List (α × β))
    (h : k2 ≠ k) : alookup k2 (aset k v d) = alookup k2 d := by
  have hne : k ≠ k2 := Ne.symm h
  induction d with
  | nil => simp [aset, alookup, hne]
  | cons hd tl ih =>
      obtain ⟨k3, v3⟩ := hd
      by_cases h3 : k3 = k
      · subst h3
        simp [aset, alookup, hne]
      · simp [aset, h3, alookup, ih]

theorem alookup_aset_isSome {α β : Type} [DecidableEq α] (k k2 : α) (v : β)
    (d : List (α × β)) (h : (alookup k2 d).isSome) :
    (alookup k2 (aset k v d)).isSome := by
  by_cases hk : k2 = k
  · subst hk
    simp [alookup_aset_self]
  · rw [alookup_aset_ne v d hk]
    exact h

/-- C1: for every state and action present in the Q-table, update_q_value
overwrites the single entry of the state and action with
old + alpha * (reward + gamma * bootstrap - old), where the bootstrap is 0
when the next state is the sentinel and the max over the Q-table row of the
next state otherwise, and every other entry of the Q-table is unchanged. -/
theorem update_q_value_is_local_td_update (alpha gamma reward : Rat) (q : QTable)
    (s : State) (a : Action) (s2 : Option State) (row : QRow) (old : Rat) (q2 : QTable)
    (hrow : alookup s q = some row) (hold : alookup a row = some old)
    (hupd : update_q_value alpha gamma q s a reward s2 = some q2) :
    (s2 = none → qget q2 s a = some (old + alpha * (reward + gamma * 0 - old))) ∧
    (∀ t row2 m, s2 = some t → alookup t q = some row2 →
        listMax (row2.map (fun pr => pr.2)) = some m →
        qget q2 s a = some (old + alpha * (reward + gamma * m - old))) ∧
    (∀ s3 a3, ¬(s3 = s ∧ a3 = a) → qget q2 s3 a3 = qget q s3 a3) := by
  simp only [update_q_value, hrow, hold] at hupd
  refine ⟨?_, ?_, ?_⟩
  · rintro rfl
    simp only [Option.some.injEq] at hupd
    subst hupd
    simp [qget, alookup_aset_self]
  · rintro t row2 m rfl hrow2 hmax
    simp only [hrow2, hmax, Option.some.injEq] at hupd
    subst hupd
    simp [qget, alookup_aset_self]
  · intro s3 a3 hne
    rcases s2 with _ | t
    · simp only [Option.some.injEq] at hupd
      subst hupd
      by_cases hs : s3 = s
      · subst hs
        have ha : a3 ≠ a := by
          intro hh
          exact hne ⟨rfl, hh⟩
        simp [qget, alookup_aset_self, alookup_aset_ne _ _ ha, hrow]
      · simp [qget, alookup_aset_ne _ _ hs]
    · rcases h2 : alookup t q with _ | row2
      · simp [h2] at hupd
      · rcases h3 : listMax (row2.map (fun pr => pr.2)) with _ | m
        · simp [h2, h3] at hupd
        · simp only [h2, h3, Option.some.injEq] at hupd
          subst hupd
          by_cases hs : s3 = s
          · subst hs
            have ha : a3 ≠ a := by
              intro hh
              exact hne ⟨rfl, hh⟩
            simp [qget, alookup_aset_self, alookup_aset_ne _ _ ha, hrow]
          · simp [qget, alookup_aset_ne _ _ hs]

/-- Concrete two-state Q-table for evaluating the update theorems. -/
def stA : State := { r := 0, c := 0 }

/-- Second concrete state of the sample Q-table. -/
def stB : State := { r := 0, c := 1 }

/-- Sample Q-table before an update. -/
def qW : QTable := [(stA, [(Action.UP, 2)]), (stB, [(Action.UP, 3), (Action.DOWN, 5)])]

/-- The sample Q-table after updating stA and UP with alpha 1/2, gamma 1/10,
reward 1 and next state stB (bootstrap 5, new value 7/4). -/
def qW2 : QTable := [(stA, [(Action.UP, 7/4)]), (stB, [(Action.UP, 3), (Action.DOWN, 5)])]

/-- Witness for C1: the update theorem evaluated on the sample Q-table. -/
theorem update_q_value_is_local_td_update_witness :
    qget qW2 stA Action.UP = some (2 + (1/2) * (1 + (1/10) * 5 - 2)) ∧
    qget qW2 stB Action.DOWN = qget qW stB Action.DOWN := by
  have hAB : stA ≠ stB := by
    simp [stA, stB]
  have hupd : update_q_value (1/2) (1/10) qW stA Action.UP 1 (some stB) = some qW2 := by
    simp only [update_q_value, qW, qW2, stA, stB, alookup, listMax, aset, List.map,
      List.foldl, if_pos, if_neg, State.mk.injEq]
    norm_num
  have h := update_q_value_is_local_td_update (1/2) (1/10) 1 qW stA Action.UP (some stB)
      [(Action.UP, 2)] 2 qW2 ?hr ?ho hupd
  case hr => simp [qW, alookup]
  case ho => simp [alookup]
  refine ⟨h.2.1 stB [(Action.UP, 3), (Action.DOWN, 5)] 5 rfl ?_ ?_, h.2.2 stB Action.DOWN ?_⟩
  · simp [qW, alookup, hAB]
  · simp [listMax]
    norm_num
  · intro hc
    exact hAB hc.1.symm

end Kuimaze

namespace Kuimaze

/-- The two-step SG episode: build the environment on grid SG with
deterministic actions and rewards goal 10, normal -5, reset it, and step
RIGHT twice, collecting the initial state and both step results. -/
def sgRun : Except RLError (State × (Option State × Rat × Bool) × (Option State × Rat × Bool)) := do
  let mp ← Map.from_string "SG"
  let env0 ← RLProblem.init mp none (some { goal := 10, danger := -1, normal := -5 })
  let (res1, env1) := env0.reset 0 none false
  let s1 ← res1
  let (env2, out1) ← env1.step Confusion.NONE Action.RIGHT
  let (_env3, out2) ← env2.step Confusion.NONE Action.RIGHT
  Except.ok (s1, out1, out2)

/-- C2: on the two-cell grid SG with deterministic actions and rewards
goal 10 and normal -5, reset resolves to State(0,0), the first RIGHT step
returns (State(0,1), -5, False) and the second RIGHT step returns
(sentinel, 10, True): each reward is the departure reward of the state being
left, and the goal reward is earned on the step departing from the goal. -/
theorem sg_scenario_rewards_on_departure :
    sgRun = Except.ok ({ r := 0, c := 0 },
      (some { r := 0, c := 1 }, -5, false), (none, 10, true)) := by rfl

end Kuimaze

namespace Kuimaze

/-- C5: step fails with NeedsResetError exactly when the environment is
awaiting a reset (episode_finished set), a freshly constructed environment is
awaiting a reset and so fails on its first step, and a step during a validly
started unfinished episode never produces NeedsResetError. -/
theorem step_needs_reset_guard (env : RLProblem) (o : Confusion) (a : Action)
    (mp : Map) (aps : Option (Rat × Rat × Rat × Rat)) (rws : Option Rewards)
    (env0 : RLProblem) :
    (RLProblem.step env o a = Except.error RLError.needsReset ↔
        env.episode_finished = true) ∧
    (RLProblem.init mp aps rws = Except.ok env0 →
        RLProblem.step env0 o a = Except.error RLError.needsReset) := by
  constructor
  · constructor
    · intro h
      by_contra hf
      have hf2 : env.episode_finished = false := by
        cases hfin : env.episode_finished
        · rfl
        · exact absurd hfin hf
      rcases hc : env.current_state with _ | s
      · simp [RLProblem.step, hf2, hc] at h
      · simp [RLProblem.step, hf2, hc] at h
    · intro h
      simp [RLProblem.step, h]
  · intro h
    have hfin : env0.episode_finished = true := by
      unfold RLProblem.init at h
      rcases hM : MDP.init mp aps rws with e | mdp
      · simp only [hM] at h
        exact absurd h (by simp)
      · simp only [hM] at h
        rcases hg : mdp.goals.head? with _ | g
        · simp only [hg] at h
          exact absurd h (by simp)
        · simp only [hg, Except.ok.injEq] at h
          subst h
          rfl
    simp [RLProblem.step, hfin]

/-- The completed SG map as a value (what Map.from_string builds for SG). -/
def mapSGv : Map :=
  Map.complete { cells := [
    { position := { r := 0, c := 0 }, role := Role.START, border := 0 },
    { position := { r := 0, c := 1 }, role := Role.GOAL, border := 0 }] }

/-- A freshly constructed environment on the SG map: cursor on the goal,
episode marked finished, so it awaits a reset. -/
def envFreshSG : RLProblem :=
  { mdp := { map := mapSGv, actions_model := ActionsModel.deterministic,
             rewards := defaultRewards },
    current_state := some { r := 0, c := 1 }, episode_finished := true }

/-- Witness for C5: the freshly constructed SG environment is produced by
init and its first step fails with NeedsResetError. -/
theorem step_needs_reset_guard_witness :
    RLProblem.step envFreshSG Confusion.NONE Action.UP =
        Except.error RLError.needsReset ∧
    RLProblem.init mapSGv none none = Except.ok envFreshSG := by
  have hinit : RLProblem.init mapSGv none none = Except.ok envFreshSG := by rfl
  have h := step_needs_reset_guard envFreshSG Confusion.NONE Action.UP
      mapSGv none none envFreshSG
  exact ⟨h.2 hinit, hinit⟩

end Kuimaze

namespace Kuimaze

/-- C9: reset is not atomic on failure.  When reset ends with
ResetImpossibleError the returned environment already has the finished flag
cleared and the cursor set to the absent-start sentinel, and a subsequent
step is no longer guarded by NeedsResetError: it fails with the TypeError of
applying an action to the sentinel instead. -/
theorem reset_failure_leaves_env_unguarded (env env2 : RLProblem) (pick : Nat)
    (o : Confusion) (a : Action)
    (h : RLProblem.reset env pick none false =
        (Except.error RLError.resetImpossible, env2)) :
    env2.episode_finished = false ∧ env2.current_state = none ∧
    RLProblem.step env2 o a = Except.error RLError.typeError ∧
    RLProblem.step env2 o a ≠ Except.error RLError.needsReset := by
  have hval : ∀ e, env.mdp.map.startEx = Except.error e → e = RLError.valueError := by
    intro e he
    unfold Map.startEx at he
    rcases hl : env.mdp.map.startList with _ | ⟨s1, _ | ⟨s2, rest⟩⟩ <;> rw [hl] at he
    · exact absurd he (by simp)
    · exact absurd he (by simp)
    · injection he with h3
      exact h3.symm
  unfold RLProblem.reset at h
  dsimp only at h
  rcases hs : env.mdp.map.startEx with e | os
  · have he : e = RLError.valueError := hval e hs
    subst he
    simp only [hs, Prod.mk.injEq] at h
    exact absurd h.1 (by simp)
  · rcases os with _ | st
    · simp only [hs, Prod.mk.injEq] at h
      rcases h with ⟨h1, h2⟩
      subst h2
      refine ⟨rfl, rfl, ?_, ?_⟩
      · simp [RLProblem.step]
      · simp [RLProblem.step]
    · simp only [hs, Prod.mk.injEq] at h
      rcases h with ⟨h1, h2⟩
      exact absurd h1 (by simp)

/-- The completed single-goal map G, which has no start cell. -/
def mapGv : Map :=
  Map.complete { cells := [
    { position := { r := 0, c := 0 }, role := Role.GOAL, border := 0 }] }

/-- An environment over the G map, awaiting reset as after construction. -/
def envGoalOnly : RLProblem :=
  { mdp := { map := mapGv, actions_model := ActionsModel.deterministic,
             rewards := defaultRewards },
    current_state := some { r := 0, c := 0 }, episode_finished := true }

/-- Witness for C9: on the start-less G map the failed reset leaves the
environment unfinished with a sentinel cursor, and step no longer raises
NeedsResetError. -/
theorem reset_failure_leaves_env_unguarded_witness :
    (RLProblem.reset envGoalOnly 0 none false).2.episode_finished = false ∧
    (RLProblem.reset envGoalOnly 0 none false).2.current_state = none ∧
    RLProblem.step (RLProblem.reset envGoalOnly 0 none false).2
        Confusion.NONE Action.RIGHT ≠ Except.error RLError.needsReset := by
  have h := reset_failure_leaves_env_unguarded envGoalOnly
      (RLProblem.reset envGoalOnly 0 none false).2 0 Confusion.NONE Action.RIGHT (by rfl)
  exact ⟨h.1, h.2.1, h.2.2.2⟩

/-- C10: constructing an RLProblem requires a goal state.  When the goal set
of the constructed MDP is empty the constructor fails (the StopIteration of
taking the first element of an empty set); when it is non-empty, the
environment starts at its first goal state with the finished flag set. -/
theorem init_requires_goal (mp : Map) (aps : Option (Rat × Rat × Rat × Rat))
    (rws : Option Rewards) (mdp : MDP) (hM : MDP.init mp aps rws = Except.ok mdp) :
    (mdp.goals = [] → RLProblem.init mp aps rws = Except.error RLError.stopIteration) ∧
    (∀ g gs, mdp.goals = g :: gs →
        RLProblem.init mp aps rws =
          Except.ok { mdp := mdp, current_state := some g, episode_finished := true } ∧
        g ∈ mdp.goals) := by
  constructor
  · intro hgoal
    unfold RLProblem.init
    simp only [hM, hgoal]
    rfl
  · intro g gs hgoal
    unfold RLProblem.init
    simp only [hM, hgoal]
    exact ⟨rfl, by simp [hgoal]⟩

/-- The completed single-cell empty map, which has no goal cell. -/
def mapDotv : Map :=
  Map.complete { cells := [
    { position := { r := 0, c := 0 }, role := Role.EMPTY, border := 0 }] }

/-- The deterministic MDP over the goal-less single-cell map. -/
def mdpDotv : MDP :=
  { map := mapDotv, actions_model := ActionsModel.deterministic, rewards := defaultRewards }

/-- The deterministic MDP over the single-goal map G. -/
def mdpGv : MDP :=
  { map := mapGv, actions_model := ActionsModel.deterministic, rewards := defaultRewards }

/-- Witness for C10: construction fails on the goal-less map and succeeds on
the single-goal map, starting at the goal with the finished flag set. -/
theorem init_requires_goal_witness :
    RLProblem.init mapDotv none none = Except.error RLError.stopIteration ∧
    RLProblem.init mapGv none none =
      Except.ok { mdp := mdpGv, current_state := some { r := 0, c := 0 },
                  episode_finished := true } := by
  have h1 := (init_requires_goal mapDotv none none mdpDotv rfl).1 rfl
  have h2 := (init_requires_goal mapGv none none mdpGv rfl).2 { r := 0, c := 0 } [] rfl
  exact ⟨h1, h2.1⟩

end Kuimaze

namespace Kuimaze

/-- Resolution of the random.choice oracle in the random_start branch of
reset: the element of get_states selected by the pick index. -/
def chosenOf (env : RLProblem) (pick : Nat) : State :=
  match env.mdp.get_states with
  | [] => { r := 0, c := 0 }
  | st :: rest => (st :: rest).getD (pick % (st :: rest).length) st

/-- A getD at an index below the length is a member of the list. -/
theorem getD_mem_of_lt {α : Type} (l : List α) (n : Nat) (d : α) (h : n < l.length) :
    l.getD n d ∈ l := by
  rw [List.getD_eq_getElem?_getD, List.getElem?_eq_getElem h]
  simp

/-- C6: reset resolves the initial state with priority explicit state
argument, then uniform random choice among all states (modelled by the pick
oracle, always a member of get_states), then the designated start cell of
the grid; with no explicit state, no random_start and no start cell it
fails with ResetImpossibleError. -/
theorem reset_resolves_priority (env : RLProblem) (pick : Nat) (s : State) :
    (∀ rs, RLProblem.reset env pick (some s) rs =
        (Except.ok s, { env with episode_finished := false, current_state := some s })) ∧
    (env.mdp.get_states ≠ [] →
        RLProblem.reset env pick none true =
          (Except.ok (chosenOf env pick),
           { env with episode_finished := false, current_state := some (chosenOf env pick) }) ∧
        chosenOf env pick ∈ env.mdp.get_states) ∧
    (env.mdp.map.startEx = Except.ok none →
        RLProblem.reset env pick none false =
          (Except.error RLError.resetImpossible,
           { env with episode_finished := false, current_state := none })) ∧
    (∀ st0, env.mdp.map.startEx = Except.ok (some st0) →
        RLProblem.reset env pick none false =
          (Except.ok st0,
           { env with episode_finished := false, current_state := some st0 })) := by
  refine ⟨?_, ?_, ?_, ?_⟩
  · intro rs
    rfl
  · intro hne
    rcases hl : env.mdp.get_states with _ | ⟨st, rest⟩
    · exact absurd hl hne
    · unfold RLProblem.reset
      dsimp only
      simp only [hl]
      refine ⟨by simp [chosenOf, hl], ?_⟩
      simp only [chosenOf, hl]
      refine getD_mem_of_lt _ _ _ ?_
      exact Nat.mod_lt _ (by simp)
  · intro hs
    unfold RLProblem.reset
    dsimp only
    simp only [hs]
  · intro st0 hs
    unfold RLProblem.reset
    dsimp only
    simp only [hs]

/-- Witness for C6: on the SG environment the explicit-state, random and
start-cell resolutions behave as claimed, and on the start-less G map the
start branch fails with ResetImpossibleError. -/
theorem reset_resolves_priority_witness :
    RLProblem.reset envFreshSG 3 (some { r := 0, c := 1 }) false =
      (Except.ok { r := 0, c := 1 },
       { envFreshSG with episode_finished := false,
                         current_state := some { r := 0, c := 1 } }) ∧
    chosenOf envFreshSG 3 ∈ envFreshSG.mdp.get_states ∧
    RLProblem.reset envGoalOnly 0 none false =
      (Except.error RLError.resetImpossible,
       { envGoalOnly with episode_finished := false, current_state := none }) ∧
    RLProblem.reset envFreshSG 3 none false =
      (Except.ok { r := 0, c := 0 },
       { envFreshSG with episode_finished := false,
                         current_state := some { r := 0, c := 0 } }) := by
  have h1 := reset_resolves_priority envFreshSG 3 { r := 0, c := 1 }
  have h2 := reset_resolves_priority envGoalOnly 0 { r := 0, c := 0 }
  exact ⟨h1.1 false, (h1.2.1 (by decide)).2, h2.2.2.1 (by rfl),
         h1.2.2.2 { r := 0, c := 0 } (by rfl)⟩

end Kuimaze

namespace Kuimaze

/-- The four renormalized confusion weights of a successfully constructed
stochastic model sum exactly to one: the forward weight is recomputed as the
remainder of the other three. -/
theorem stochastic_init_sum (f l r b : Rat) (p : Confusion → Rat)
    (h : StochasticActions.init f l r b = Except.ok p) :
    p Confusion.NONE + p Confusion.RIGHT + p Confusion.BACKWARD + p Confusion.LEFT = 1 := by
  simp only [StochasticActions.init] at h
  by_cases hc : |1 - (f + l + r + b)| < 1/1000000
  · rw [if_pos hc] at h
    injection h with h2
    subst h2
    dsimp only
    ring
  · rw [if_neg hc] at h
    exact absurd h (by simp)

/-- C8: for every validly constructed stochastic model and every action, the
probabilities mapping has exactly 4 entries, one per action obtained by
rotating the intended action by each Confusion value (pairwise distinct
keys), and the probabilities sum to 1 after the defensive renormalization. -/
theorem stochastic_probs_four_entries_sum_one (f l r b : Rat) (p : Confusion → Rat)
    (a : Action) (h : StochasticActions.init f l r b = Except.ok p) :
    ((ActionsModel.stochastic p).get_actions_probs a).length = 4 ∧
    (((ActionsModel.stochastic p).get_actions_probs a).map (fun pr => pr.1)).Nodup ∧
    (((ActionsModel.stochastic p).get_actions_probs a).map (fun pr => pr.2)).sum = 1 := by
  refine ⟨rfl, ?_, ?_⟩
  · simp only [ActionsModel.get_actions_probs, confusionList, List.map_cons, List.map_nil]
    cases a <;> decide
  · simp only [ActionsModel.get_actions_probs, confusionList, List.map_cons, List.map_nil,
      List.sum_cons, List.sum_nil]
    have hsum := stochastic_init_sum f l r b p h
    linarith [hsum]

/-- The confusion distribution produced by StochasticActions.init from the
weights 0.8, 0.1, 0.1, 0. -/
def pW : Confusion → Rat := fun c =>
  match c with
  | Confusion.NONE =>
      1 - (1/10) / ((4:Rat)/5 + 1/10 + 1/10 + 0)
        - (1/10) / ((4:Rat)/5 + 1/10 + 1/10 + 0)
        - 0 / ((4:Rat)/5 + 1/10 + 1/10 + 0)
  | Confusion.RIGHT => (1/10) / ((4:Rat)/5 + 1/10 + 1/10 + 0)
  | Confusion.BACKWARD => 0 / ((4:Rat)/5 + 1/10 + 1/10 + 0)
  | Confusion.LEFT => (1/10) / ((4:Rat)/5 + 1/10 + 1/10 + 0)

/-- Construction of the 0.8, 0.1, 0.1, 0 stochastic model succeeds and
yields pW. -/
theorem pW_init : StochasticActions.init (4/5) (1/10) (1/10) 0 = Except.ok pW := by
  have hcond : |1 - ((4:Rat)/5 + 1/10 + 1/10 + 0)| < 1/1000000 := by norm_num
  unfold StochasticActions.init
  dsimp only
  rw [if_pos hcond]
  rfl

/-- Witness for C8: the theorem evaluated on the 0.8, 0.1, 0.1, 0 model. -/
theorem stochastic_probs_four_entries_sum_one_witness :
    ((ActionsModel.stochastic pW).get_actions_probs Action.UP).length = 4 ∧
    (((ActionsModel.stochastic pW).get_actions_probs Action.UP).map (fun pr => pr.1)).Nodup ∧
    (((ActionsModel.stochastic pW).get_actions_probs Action.UP).map (fun pr => pr.2)).sum = 1 :=
  stochastic_probs_four_entries_sum_one (4/5) (1/10) (1/10) 0 pW Action.UP pW_init

/-- C4: four weights whose sum differs from 1 by at least 1e-6 make the
stochastic model constructor fail with the ValidationError, and the failure
already occurs when constructing the MDP or the RL environment with those
weights, not at first use. -/
theorem malformed_weights_fail_at_construction (f l r b : Rat) (mp : Map)
    (rws : Option Rewards) (h : 1/1000000 ≤ |1 - (f + l + r + b)|) :
    StochasticActions.init f l r b = Except.error RLError.validationError ∧
    MDP.init mp (some (f, l, r, b)) rws = Except.error RLError.validationError ∧
    RLProblem.init mp (some (f, l, r, b)) rws = Except.error RLError.validationError := by
  have hn : ¬(|1 - (f + l + r + b)| < 1/1000000) := not_lt.mpr h
  have h1 : StochasticActions.init f l r b = Except.error RLError.validationError := by
    unfold StochasticActions.init
    dsimp only
    rw [if_neg hn]
  have h2 : MDP.init mp (some (f, l, r, b)) rws = Except.error RLError.validationError := by
    unfold MDP.init
    dsimp only
    rw [h1]
    rfl
  have h3 : RLProblem.init mp (some (f, l, r, b)) rws =
      Except.error RLError.validationError := by
    unfold RLProblem.init
    rw [h2]
  exact ⟨h1, h2, h3⟩

/-- Witness for C4: all-zero weights (sum 0) fail at every construction
level. -/
theorem malformed_weights_fail_at_construction_witness :
    StochasticActions.init 0 0 0 0 = Except.error RLError.validationError ∧
    MDP.init mapSGv (some (0, 0, 0, 0)) none = Except.error RLError.validationError ∧
    RLProblem.init mapSGv (some (0, 0, 0, 0)) none = Except.error RLError.validationError :=
  malformed_weights_fail_at_construction 0 0 0 0 mapSGv none (by norm_num)

/-- The stochastic MDP on the SG map with weights 0.8, 0.1, 0.1, 0. -/
def mdpSW : MDP :=
  { map := mapSGv, actions_model := ActionsModel.stochastic pW, rewards := defaultRewards }

/-- Construction of the stochastic SG MDP through from_string and MDP.init. -/
def mdpStochSG : Except RLError MDP :=
  (Map.from_string "SG").bind (fun mp => MDP.init mp (some (4/5, 1/10, 1/10, 0)) none)

/-- Counterexample to C3 as stated: on a constructible stochastic MDP the
transition enumeration at a terminal state returns four results, not exactly
one. -/
theorem terminal_enumeration_not_single_counterexample :
    mdpStochSG = Except.ok mdpSW ∧
    mdpSW.is_terminal { r := 0, c := 1 } = true ∧
    (mdpSW.get_next_states_and_probs { r := 0, c := 1 } Action.RIGHT).length = 4 ∧
    (mdpSW.get_next_states_and_probs { r := 0, c := 1 } Action.RIGHT).length ≠ 1 := by
  have hmp : Map.from_string "SG" = Except.ok mapSGv := by rfl
  refine ⟨?_, by decide, rfl, by decide⟩
  unfold mdpStochSG
  rw [hmp]
  show MDP.init mapSGv (some (4/5, 1/10, 1/10, 0)) none = Except.ok mdpSW
  unfold MDP.init
  dsimp only
  rw [pW_init]
  rfl

/-- C3 amended: at a terminal state every enumerated transition is the
sentinel; with the deterministic action model the enumeration is exactly
[(sentinel, 1.0)], and with a validly constructed stochastic model it has
one sentinel entry per confusion (four entries) whose weights sum to 1. -/
theorem terminal_transitions_all_sentinel (m : MDP) (s : State) (a : Action)
    (h : m.is_terminal s = true) :
    (∀ pr ∈ m.get_next_states_and_probs s a, pr.1 = none) ∧
    (m.actions_model = ActionsModel.deterministic →
        m.get_next_states_and_probs s a = [(none, 1)]) ∧
    (∀ f l r b p, m.actions_model = ActionsModel.stochastic p →
        StochasticActions.init f l r b = Except.ok p →
        (m.get_next_states_and_probs s a).length = 4 ∧
        ((m.get_next_states_and_probs s a).map (fun pr => pr.2)).sum = 1) := by
  have htr : ∀ a2, m.transitionResult s a2 = none := by
    intro a2
    simp [MDP.transitionResult, h]
  refine ⟨?_, ?_, ?_⟩
  · intro pr hpr
    unfold MDP.get_next_states_and_probs at hpr
    rcases List.mem_map.mp hpr with ⟨x, hx, heq⟩
    rw [← heq]
    exact htr x.1
  · intro hd
    simp [MDP.get_next_states_and_probs, hd, ActionsModel.get_actions_probs, htr]
  · intro f l r b p hs hinit
    constructor
    · simp [MDP.get_next_states_and_probs, hs, ActionsModel.get_actions_probs, confusionList]
    · have hsum := stochastic_init_sum f l r b p hinit
      simp only [MDP.get_next_states_and_probs, hs, ActionsModel.get_actions_probs,
        confusionList, List.map_cons, List.map_nil, List.sum_cons, List.sum_nil]
      linarith [hsum]

/-- Witness for the amended C3: the deterministic G MDP enumerates exactly
[(sentinel, 1)] at its terminal state, and the stochastic SG MDP enumerates
four sentinel entries summing to 1. -/
theorem terminal_transitions_all_sentinel_witness :
    mdpGv.get_next_states_and_probs { r := 0, c := 0 } Action.RIGHT = [(none, 1)] ∧
    (mdpSW.get_next_states_and_probs { r := 0, c := 1 } Action.RIGHT).length = 4 ∧
    ((mdpSW.get_next_states_and_probs { r := 0, c := 1 } Action.RIGHT).map
        (fun pr => pr.2)).sum = 1 := by
  have h1 := terminal_transitions_all_sentinel mdpGv { r := 0, c := 0 } Action.RIGHT (by decide)
  have h2 := terminal_transitions_all_sentinel mdpSW { r := 0, c := 1 } Action.RIGHT (by decide)
  have h3 := h2.2.2 (4/5) (1/10) (1/10) 0 pW rfl pW_init
  exact ⟨h1.2.1 rfl, h3.1, h3.2⟩

end Kuimaze

namespace Kuimaze

/-- Lookup in an association list built by pairing every element of a list
with a constant value. -/
theorem alookup_map_const {α β : Type} [DecidableEq α] (l : List α) (v : β) (k : α)
    (h : k ∈ l) : alookup k (l.map (fun x => (x, v))) = some v := by
  induction l with
  | nil => cases h
  | cons hd tl ih =>
      rcases List.mem_cons.mp h with rfl | h2
      · simp [alookup]
      · by_cases hk : hd = k
        · simp [alookup, hk]
        · simp [alookup, hk, ih h2]

/-- A successful update_q_value call rewrites the table as two nested dict
assignments on the existing row of the updated state. -/
theorem update_q_value_shape (alpha gamma reward : Rat) (q : QTable) (s : State)
    (a : Action) (s2 : Option State) (q2 : QTable)
    (hupd : update_q_value alpha gamma q s a reward s2 = some q2) :
    ∃ row nv, alookup s q = some row ∧ q2 = aset s (aset a nv row) q := by
  unfold update_q_value at hupd
  rcases hrow : alookup s q with _ | row
  · simp only [hrow] at hupd
    exact absurd hupd (by simp)
  · simp only [hrow] at hupd
    rcases hold : alookup a row with _ | old
    · simp only [hold] at hupd
      exact absurd hupd (by simp)
    · simp only [hold] at hupd
      rcases s2 with _ | t
      · simp only [Option.some.injEq] at hupd
        exact ⟨row, _, rfl, hupd.symm⟩
      · rcases ht : alookup t q with _ | row2
        · simp only [ht] at hupd
          exact absurd hupd (by simp)
        · simp only [ht] at hupd
          rcases hm : listMax (row2.map (fun pr => pr.2)) with _ | mx
          · simp only [hm] at hupd
            exact absurd hupd (by simp)
          · simp only [hm, Option.some.injEq] at hupd
            exact ⟨row, _, rfl, hupd.symm⟩

/-- C7: after initialization every non-wall state of the environment is a
key of the Q-table and its row holds all four actions with value zero; a
successful Q-value update never removes a state key or a row entry, so the
coverage is an invariant of the update. -/
theorem q_table_covers_states_and_never_shrinks (env : RLProblem)
    (alpha gamma reward : Rat) (q : QTable) (s : State) (a : Action)
    (s2 : Option State) (q2 : QTable) :
    (∀ st, st ∈ env.mdp.get_states →
        alookup st (init_q_table env) =
          some (get_action_space.map (fun a2 => (a2, (0 : Rat))))) ∧
    (∀ act : Action,
        alookup act (get_action_space.map (fun a2 => (a2, (0 : Rat)))) = some 0) ∧
    (update_q_value alpha gamma q s a reward s2 = some q2 →
        (∀ st, (alookup st q).isSome → (alookup st q2).isSome) ∧
        (∀ st act, (qget q st act).isSome → (qget q2 st act).isSome)) := by
  refine ⟨?_, ?_, ?_⟩
  · intro st hst
    unfold init_q_table
    exact alookup_map_const _ _ _ hst
  · intro act
    cases act <;> decide
  · intro hupd
    rcases update_q_value_shape alpha gamma reward q s a s2 q2 hupd with ⟨row, nv, hrow, rfl⟩
    constructor
    · intro st hsome
      exact alookup_aset_isSome _ _ _ _ hsome
    · intro st act hsome
      unfold qget at hsome ⊢
      rcases hst : alookup st q with _ | rowst
      · rw [hst] at hsome
        simp at hsome
      · rw [hst] at hsome
        by_cases hs : st = s
        · subst hs
          have hr : rowst = row := by
            rw [hrow] at hst
            exact (Option.some.inj hst).symm
          subst hr
          rw [alookup_aset_self]
          exact alookup_aset_isSome _ _ _ _ hsome
        · rw [alookup_aset_ne _ _ hs, hst]
          exact hsome

/-- Witness for C7: coverage on the SG environment and preservation across
the sample update from qW to qW2. -/
theorem q_table_covers_states_and_never_shrinks_witness :
    alookup { r := 0, c := 0 } (init_q_table envFreshSG) =
      some (get_action_space.map (fun a2 => (a2, (0 : Rat)))) ∧
    alookup Action.LEFT (get_action_space.map (fun a2 => (a2, (0 : Rat)))) = some 0 ∧
    (alookup stB qW2).isSome ∧ (qget qW2 stB Action.DOWN).isSome := by
  have h := q_table_covers_states_and_never_shrinks envFreshSG (1/2) (1/10) 1 qW stA
      Action.UP (some stB) qW2
  have hupd : update_q_value (1/2) (1/10) qW stA Action.UP 1 (some stB) = some qW2 := by
    simp only [update_q_value, qW, qW2, stA, stB, alookup, listMax, aset, List.map,
      List.foldl, if_pos, if_neg, State.mk.injEq]
    norm_num
  exact ⟨h.1 { r := 0, c := 0 } (by decide), h.2.1 Action.LEFT,
         (h.2.2 hupd).1 stB (by decide), (h.2.2 hupd).2 stB Action.DOWN (by decide)⟩

end Kuimaze
